import Mathlib

/-!
Shallow embedding of src/evaluate.py (function estimate_financial_results).

The Python function has two stages:
  1. lines 24-26: build a working frame financial_results with columns
     date, store, item, sales = expm1(y_true.reset_index(drop=True)),
     predictions = expm1(y_pred)  -- note: y_pred's index is NOT reset,
     so pandas aligns it by label against the frame's fresh RangeIndex.
  2. lines 28-117: branch on per_store / per_store_item / overall and
     aggregate.

Stage 2 is embedded generically over a LinearOrderedField (the Python
floats are modelled as exact field elements); stage 1 is embedded over ℝ
because np.expm1 is exp(x) - 1.

Failure model: sklearn.mean_absolute_error raises on empty input, and the
per_store_item merge raises on an empty frame; the try/except at the
bottom of the function wraps any exception into CustomException carrying
the cause.  Fallible steps return Except String; the top-level wrapper
maps the error side into CustomException.
-/

/-- Row of the working frame financial_results (line 24-26): date, store,
item, sales, predictions.  Dates are abstract labels (ℕ). -/
structure FRow (α : Type) where
  date : ℕ
  store : ℤ
  item : ℤ
  sales : α
  predictions : α
deriving DecidableEq, Repr

/-- Effectful map over a list, first error aborting: the semantics of the
per-store for-loop appending one result per iteration (lines 30-65) and of
pandas applying a fallible function group by group (line 76). -/
def mapME {β γ ε : Type} (f : β → Except ε γ) : List β → Except ε (List γ)
  | [] => .ok []
  | x :: xs => do
    let y ← f x
    let ys ← mapME f xs
    .ok (y :: ys)

/-- Option-valued variant, used for index-label alignment. -/
def mapMO {β γ : Type} (f : β → Option γ) : List β → Option (List γ)
  | [] => some []
  | x :: xs => do
    let y ← f x
    let ys ← mapMO f xs
    some (y :: ys)

section Aggregation

variable {α : Type} [LinearOrderedField α] [FloorRing α]

/-- Round half to even (banker's rounding), the semantics of Python's
round() and numpy rint, which DataFrame.round(0) uses (lines 68, 84, 115). -/
def roundHE (x : α) : ℤ :=
  if Int.fract x < 1 / 2 then ⌊x⌋
  else if 1 / 2 < Int.fract x then ⌊x⌋ + 1
  else if ⌊x⌋ % 2 = 0 then ⌊x⌋ else ⌊x⌋ + 1

/-- Rounding as a field-valued map, as the rounded DataFrame still holds
numbers of the same (float) type. -/
def roundHEF (x : α) : α := ((roundHE x : ℤ) : α)

/-- sklearn.metrics.mean_absolute_error: raises on 0 samples or a length
mismatch, otherwise mean of absolute differences. -/
def mean_absolute_error (y_true y_pred : List α) : Except String α :=
  if y_true.length ≠ y_pred.length then
    .error "Found input variables with inconsistent numbers of samples"
  else if y_true.length = 0 then
    .error "Found array with 0 samples"
  else
    .ok ((((y_true.zip y_pred).map fun p => |p.1 - p.2|).sum) / (y_true.length : α))

/-- groupby(date)[[sales, predictions]].sum() (lines 44, 94): one entry per
distinct date, with the sums of sales and predictions over that date's rows. -/
def dailySeries (rows : List (FRow α)) : List (ℕ × α × α) :=
  ((rows.map (·.date)).dedup).map fun d =>
    (d, ((rows.filter (·.date = d)).map (·.sales)).sum,
        ((rows.filter (·.date = d)).map (·.predictions)).sum)

/-- Daily MAE (lines 44-45, 94-95): mean_absolute_error between the
date-summed sales and predictions series. -/
def dailyMAE (rows : List (FRow α)) : Except String α :=
  mean_absolute_error ((dailySeries rows).map (·.2.1)) ((dailySeries rows).map (·.2.2))

/-- One result row of the overall branch (lines 89-113); the DataFrame
built there has exactly this one row. -/
structure OverallRow (α : Type) where
  total : α
  avg : α
  mae : α
  worstAvg : α
  bestAvg : α
  worstTotal : α
  bestTotal : α
deriving DecidableEq, Repr

/-- Overall branch before the final round (lines 89-113). -/
def overallBranch (rows : List (FRow α)) : Except String (OverallRow α) := do
  let sum_pred := (rows.map (·.predictions)).sum
  let avg_pred := sum_pred / 93
  let daily_mae ← dailyMAE rows
  .ok ⟨sum_pred, avg_pred, daily_mae,
       avg_pred - daily_mae, avg_pred + daily_mae,
       sum_pred - daily_mae * 93, sum_pred + daily_mae * 93⟩

/-- round(overall_results_df) (line 115). -/
def roundOverallRow (r : OverallRow α) : OverallRow α :=
  ⟨roundHEF r.total, roundHEF r.avg, roundHEF r.mae, roundHEF r.worstAvg,
   roundHEF r.bestAvg, roundHEF r.worstTotal, roundHEF r.bestTotal⟩

/-- One result row of the per_store branch (lines 56-65). -/
structure StoreRow (α : Type) where
  store : ℤ
  total : α
  avg : α
  mae : α
  worstAvg : α
  bestAvg : α
  worstTotal : α
  bestTotal : α
deriving DecidableEq, Repr

/-- Body of the per-store loop (lines 35-65) for one store id. -/
def storeBranch (rows : List (FRow α)) (store_id : ℤ) : Except String (StoreRow α) := do
  let store_i_data := rows.filter (·.store = store_id)
  let total := (store_i_data.map (·.predictions)).sum
  let avg := total / 93
  let daily_mae ← dailyMAE store_i_data
  .ok ⟨store_id, total, avg, daily_mae,
       avg - daily_mae, avg + daily_mae,
       total - daily_mae * 93, total + daily_mae * 93⟩

/-- Per-store branch before the final round: the loop for store_id in
range(1, 11) (line 33). -/
def perStoreBranch (rows : List (FRow α)) : Except String (List (StoreRow α)) :=
  mapME (storeBranch rows) ((List.range 10).map fun k => (k : ℤ) + 1)

/-- round(pd.DataFrame(results_stores)) (line 68): every numeric column is
rounded; the Store column holds integers, which rounding fixes. -/
def roundStoreRow (r : StoreRow α) : StoreRow α :=
  ⟨r.store, roundHEF r.total, roundHEF r.avg, roundHEF r.mae, roundHEF r.worstAvg,
   roundHEF r.bestAvg, roundHEF r.worstTotal, roundHEF r.bestTotal⟩

/-- One result row of the per_store_item branch (lines 74-84). -/
structure ItemRow (α : Type) where
  store : ℤ
  item : ℤ
  total : α
  avg : α
  mae : α
  worstAvg : α
  bestAvg : α
  worstTotal : α
  bestTotal : α
deriving DecidableEq, Repr

/-- Distinct (store, item) pairs of the frame, the group keys of
groupby([store, item]) (lines 74-76). -/
def pairsOf (rows : List (FRow α)) : List (ℤ × ℤ) :=
  (rows.map fun r => (r.store, r.item)).dedup

/-- Rows of one (store, item) group. -/
def groupRows (rows : List (FRow α)) (p : ℤ × ℤ) : List (FRow α) :=
  rows.filter fun r => (r.store, r.item) = p

/-- One merged row of the per_store_item branch for one group key (lines
74-82, with the three groupbys and the two inner merges on identical key
sets fused into one row per key): total = predictions.sum() (line 74),
avg = predictions.mean(), the arithmetic mean over the group's rows (line
75), MAE = mean_absolute_error applied to the group's raw sales and
predictions columns (line 76: no date grouping), and the four scenario
columns (lines 79-82). -/
def itemBranch (rows : List (FRow α)) (p : ℤ × ℤ) : Except String (ItemRow α) := do
  let g := groupRows rows p
  let total := (g.map (·.predictions)).sum
  let avg := total / (g.length : α)
  let mae ← mean_absolute_error (g.map (·.sales)) (g.map (·.predictions))
  .ok ⟨p.1, p.2, total, avg, mae,
       avg - mae, avg + mae,
       total - mae * 93, total + mae * 93⟩

/-- Per-store-item branch before the final round (lines 74-83): one merged
row per distinct (store, item) key.  On an empty input frame the
groupby-apply result carries no key columns and the merge (line 78)
raises, modelled as the error case. -/
def perStoreItemBranch (rows : List (FRow α)) : Except String (List (ItemRow α)) :=
  if rows.isEmpty then .error "merge keys missing on empty grouped frame"
  else mapME (itemBranch rows) (pairsOf rows)

/-- round(items_results) (line 84). -/
def roundItemRow (r : ItemRow α) : ItemRow α :=
  ⟨r.store, r.item, roundHEF r.total, roundHEF r.avg, roundHEF r.mae, roundHEF r.worstAvg,
   roundHEF r.bestAvg, roundHEF r.worstTotal, roundHEF r.bestTotal⟩

/-- Result value of the function: one of three table shapes, depending on
the branch taken. -/
inductive FinResult (α : Type) where
  | overall : OverallRow α → FinResult α
  | stores : List (StoreRow α) → FinResult α
  | items : List (ItemRow α) → FinResult α
deriving DecidableEq, Repr

/-- Number of rows of the returned table; the overall DataFrame is built
from singleton column lists (lines 105-113), hence one row. -/
def FinResult.rowCount : FinResult α → ℕ
  | .overall _ => 1
  | .stores l => l.length
  | .items l => l.length

/-- Stage 2, dispatch on the two boolean flags (lines 28, 73): if per_store
then ... elif per_store_item then ... else overall, each branch returning
its rounded table. -/
def computeResults (rows : List (FRow α)) (per_store per_store_item : Bool) :
    Except String (FinResult α) :=
  if per_store then
    (perStoreBranch rows).map fun l => .stores (l.map roundStoreRow)
  else if per_store_item then
    (perStoreItemBranch rows).map fun l => .items (l.map roundItemRow)
  else
    (overallBranch rows).map fun r => .overall (roundOverallRow r)

/-- Dispatch with the rounding step stripped, used to state that the
rounding is the last thing each branch does before returning. -/
def rawResults (rows : List (FRow α)) (per_store per_store_item : Bool) :
    Except String (FinResult α) :=
  if per_store then (perStoreBranch rows).map .stores
  else if per_store_item then (perStoreItemBranch rows).map .items
  else (overallBranch rows).map .overall

/-- Rounding applied to a whole result table. -/
def FinResult.roundAll : FinResult α → FinResult α
  | .overall r => .overall (roundOverallRow r)
  | .stores l => .stores (l.map roundStoreRow)
  | .items l => .items (l.map roundItemRow)

/-- Scenario ordering within one overall row: worst ≤ point estimate ≤ best
for the daily-average triple and for the total triple. -/
def OverallRow.ordered (r : OverallRow α) : Prop :=
  r.worstAvg ≤ r.avg ∧ r.avg ≤ r.bestAvg ∧ r.worstTotal ≤ r.total ∧ r.total ≤ r.bestTotal

/-- Scenario ordering within one per-store row. -/
def StoreRow.ordered (r : StoreRow α) : Prop :=
  r.worstAvg ≤ r.avg ∧ r.avg ≤ r.bestAvg ∧ r.worstTotal ≤ r.total ∧ r.total ≤ r.bestTotal

/-- Scenario ordering within one per-store-item row. -/
def ItemRow.ordered (r : ItemRow α) : Prop :=
  r.worstAvg ≤ r.avg ∧ r.avg ≤ r.bestAvg ∧ r.worstTotal ≤ r.total ∧ r.total ≤ r.bestTotal

/-- Scenario ordering in every row of a result table. -/
def FinResult.allOrdered : FinResult α → Prop
  | .overall r => r.ordered
  | .stores l => ∀ r ∈ l, r.ordered
  | .items l => ∀ r ∈ l, r.ordered

/-- Integrality of every numeric value of one overall row. -/
def OverallRow.integral (r : OverallRow α) : Prop :=
  (∃ k : ℤ, r.total = (k : α)) ∧ (∃ k : ℤ, r.avg = (k : α)) ∧ (∃ k : ℤ, r.mae = (k : α)) ∧
  (∃ k : ℤ, r.worstAvg = (k : α)) ∧ (∃ k : ℤ, r.bestAvg = (k : α)) ∧
  (∃ k : ℤ, r.worstTotal = (k : α)) ∧ (∃ k : ℤ, r.bestTotal = (k : α))

/-- Integrality of every numeric value of one per-store row (the Store
column is an integer by type). -/
def StoreRow.integral (r : StoreRow α) : Prop :=
  (∃ k : ℤ, r.total = (k : α)) ∧ (∃ k : ℤ, r.avg = (k : α)) ∧ (∃ k : ℤ, r.mae = (k : α)) ∧
  (∃ k : ℤ, r.worstAvg = (k : α)) ∧ (∃ k : ℤ, r.bestAvg = (k : α)) ∧
  (∃ k : ℤ, r.worstTotal = (k : α)) ∧ (∃ k : ℤ, r.bestTotal = (k : α))

/-- Integrality of every numeric value of one per-store-item row. -/
def ItemRow.integral (r : ItemRow α) : Prop :=
  (∃ k : ℤ, r.total = (k : α)) ∧ (∃ k : ℤ, r.avg = (k : α)) ∧ (∃ k : ℤ, r.mae = (k : α)) ∧
  (∃ k : ℤ, r.worstAvg = (k : α)) ∧ (∃ k : ℤ, r.bestAvg = (k : α)) ∧
  (∃ k : ℤ, r.worstTotal = (k : α)) ∧ (∃ k : ℤ, r.bestTotal = (k : α))

/-- Integrality of every numeric value of a result table. -/
def FinResult.allIntegral : FinResult α → Prop
  | .overall r => r.integral
  | .stores l => ∀ r ∈ l, r.integral
  | .items l => ∀ r ∈ l, r.integral

end Aggregation

section BuildTable

/-- Input data row: the date, store, item projection used on line 24. -/
structure DRow where
  date : ℕ
  store : ℤ
  item : ℤ
deriving DecidableEq, Repr

/-- np.expm1. -/
noncomputable def expm1 (x : ℝ) : ℝ := Real.exp x - 1

/-- Pandas Series value: a list of (index label, value) pairs. -/
def Series := List (ℤ × ℝ)

/-- Series.reset_index(drop=True): keep the values in order, discarding the
labels (line 25 applies this to y_true). -/
def seriesReset (s : Series) : List ℝ := s.map Prod.snd

/-- Label lookup in a series, how pandas aligns a Series being assigned to
a column of a frame with a RangeIndex. -/
def lookupLabel (s : Series) (l : ℤ) : Option ℝ :=
  (s.find? fun p => p.1 = l).map (·.2)

/-- Lines 24-26 of estimate_financial_results.
Line 24 drops data's own index (reset_index then a column selection), so
the frame's index is the positions 0..n-1.  Line 25 resets y_true's index,
so sales is positional.  Line 26 does NOT reset y_pred: pandas aligns
np.expm1(y_pred) by its labels against the positions 0..n-1.  A y_true of
a different length leaves unmatched positions (silently NaN in pandas); a
duplicate label in y_pred raises on assignment; a position with no
matching y_pred label becomes NaN — NaN poisons every numeric output, and
both NaN regimes are modelled as build failures here, since every claim
concerns the well-aligned regime. -/
noncomputable def buildTable (data : List DRow) (y_true y_pred : Series) :
    Except String (List (FRow ℝ)) :=
  if (seriesReset y_true).length ≠ data.length then
    .error "length of values does not match length of index"
  else if ¬ (y_pred.map (·.1)).Nodup then
    .error "cannot reindex from a duplicate axis"
  else
    match mapMO (lookupLabel y_pred) ((List.range data.length).map Int.ofNat) with
    | none => .error "prediction series index does not cover the row positions"
    | some preds =>
      .ok (((data.zip ((seriesReset y_true).zip preds)).map fun t =>
        ⟨t.1.date, t.1.store, t.1.item, expm1 t.2.1, expm1 t.2.2⟩))

/-- CustomException(e, sys): the single generic wrapper raised by the
except clause (lines 119-120), carrying the original cause. -/
structure CustomException where
  cause : String
deriving DecidableEq, Repr

/-- estimate_financial_results: build the working frame, dispatch on the
flags, and wrap any failure into CustomException. -/
noncomputable def estimate_financial_results (data : List DRow) (y_true y_pred : Series)
    (per_store per_store_item : Bool) : Except CustomException (FinResult ℝ) :=
  ((buildTable data y_true y_pred).bind fun rows =>
    computeResults rows per_store per_store_item).mapError CustomException.mk

end BuildTable

section ConcreteInputs

/-- Working frame with one row of zero sales and zero predictions for each
of the ten stores (all on one date), on which every branch succeeds. -/
def twq : List (FRow ℚ) :=
  [⟨0, 1, 1, 0, 0⟩, ⟨0, 2, 1, 0, 0⟩, ⟨0, 3, 1, 0, 0⟩, ⟨0, 4, 1, 0, 0⟩, ⟨0, 5, 1, 0, 0⟩,
   ⟨0, 6, 1, 0, 0⟩, ⟨0, 7, 1, 0, 0⟩, ⟨0, 8, 1, 0, 0⟩, ⟨0, 9, 1, 0, 0⟩, ⟨0, 10, 1, 0, 0⟩]

/-- Overall result row of twq. -/
def twqOverallRow : OverallRow ℚ := ⟨0, 0, 0, 0, 0, 0, 0⟩

/-- Per-store result rows of twq. -/
def twqStoreRows : List (StoreRow ℚ) :=
  (List.range 10).map fun k => ⟨(k : ℤ) + 1, 0, 0, 0, 0, 0, 0, 0⟩

/-- Per-store-item result rows of twq. -/
def twqItemRows : List (ItemRow ℚ) :=
  (List.range 10).map fun k => ⟨(k : ℤ) + 1, 1, 0, 0, 0, 0, 0, 0, 0⟩

/-- Working frame with one (store, item) group observed twice on the SAME
date: sales 0 and 2, predictions 1 and 1.  Reachable from log-space inputs
y_true = [log 1, log 3] and y_pred = [log 2, log 2]. -/
def exDup : List (FRow ℚ) := [⟨0, 1, 1, 0, 1⟩, ⟨0, 1, 1, 2, 1⟩]

/-- Working frame with a single row whose prediction is 93. -/
def exOne : List (FRow ℚ) := [⟨0, 1, 1, 93, 93⟩]

/-- Working frame whose only row belongs to store 2, so store 1 has no
matching rows. -/
def exNoStore : List (FRow ℚ) := [⟨0, 2, 1, 0, 0⟩]

/-- Dataset of the worked example: one store/item pair on two dates. -/
def c7data : List DRow := [⟨0, 1, 1⟩, ⟨1, 1, 1⟩]

/-- True log-values [0, 0] of the worked example. -/
def c7yt : Series := [(0, 0), (1, 0)]

/-- Predicted log-values [ln 2, ln 2] of the worked example, with the
aligned index [0, 1]. -/
noncomputable def c7yp : Series := [(0, Real.log 2), (1, Real.log 2)]

/-- True log-values [0, ln 4] (sales [0, 3]) aligned positionally. -/
noncomputable def c2yt : Series := [(0, 0), (1, Real.log 4)]

/-- Predicted log-values [0, ln 4] carrying the aligned index [0, 1]. -/
noncomputable def c2ypA : Series := [(0, 0), (1, Real.log 4)]

/-- The same predicted value sequence [0, ln 4] but carrying the swapped
index [1, 0], as a forecast output with a reordered index would. -/
noncomputable def c2ypB : Series := [(1, 0), (0, Real.log 4)]

/-- Working frame produced from c7data, c2yt and the aligned predictions
c2ypA. -/
noncomputable def c2tblA : List (FRow ℝ) := [⟨0, 1, 1, 0, 0⟩, ⟨1, 1, 1, 3, 3⟩]

/-- Working frame produced from c7data, c2yt and the index-swapped
predictions c2ypB: the prediction values land on the opposite rows. -/
noncomputable def c2tblB : List (FRow ℝ) := [⟨0, 1, 1, 0, 3⟩, ⟨1, 1, 1, 3, 0⟩]

/-- Data and y_true series with exotic labels for exercising the index
reset on y_true. -/
def caData : List DRow := [⟨0, 1, 1⟩]

/-- One-point series with label 5. -/
def caYtA : Series := [(5, 0)]

/-- One-point series with the same values but label 9. -/
def caYtB : Series := [(9, 0)]

/-- One-point prediction series with the aligned label 0. -/
def caYp : Series := [(0, 0)]

end ConcreteInputs

section Lemmas

variable {α : Type} [LinearOrderedField α] [FloorRing α]

theorem roundHE_intCast (n : ℤ) : roundHE (n : α) = n := by
  simp [roundHE, Int.fract_intCast]

theorem floor_le_roundHE (x : α) : ⌊x⌋ ≤ roundHE x := by
  unfold roundHE
  split_ifs <;> omega

theorem roundHE_le_floor_add_one (x : α) : roundHE x ≤ ⌊x⌋ + 1 := by
  unfold roundHE
  split_ifs <;> omega

theorem roundHE_mono {x y : α} (h : x ≤ y) : roundHE x ≤ roundHE y := by
  rcases lt_or_eq_of_le (Int.floor_le_floor h) with hf | hf
  · calc roundHE x ≤ ⌊x⌋ + 1 := roundHE_le_floor_add_one x
      _ ≤ ⌊y⌋ := by omega
      _ ≤ roundHE y := floor_le_roundHE y
  · have hfr : Int.fract x ≤ Int.fract y := by
      unfold Int.fract
      rw [hf]
      linarith
    unfold roundHE
    rw [hf]
    split_ifs <;> first | omega | linarith

theorem roundHEF_mono {x y : α} (h : x ≤ y) : roundHEF x ≤ roundHEF y := by
  unfold roundHEF
  exact_mod_cast roundHE_mono h

omit [FloorRing α] in
theorem mean_absolute_error_ok_nonneg {a b : List α} {m : α}
    (h : mean_absolute_error a b = .ok m) : 0 ≤ m := by
  unfold mean_absolute_error at h
  split_ifs at h
  injection h with h
  subst h
  apply div_nonneg _ (by positivity)
  apply List.sum_nonneg
  intro x hx
  obtain ⟨p, _, hp⟩ := List.mem_map.mp hx
  rw [← hp]
  exact abs_nonneg _

theorem mapME_ok_length {β γ ε : Type} {f : β → Except ε γ} {l : List β} {ys : List γ}
    (h : mapME f l = .ok ys) : ys.length = l.length := by
  induction l generalizing ys with
  | nil => simp [mapME] at h; simp [← h]
  | cons x xs ih =>
    simp only [mapME, bind, Except.bind] at h
    cases hx : f x with
    | error e => rw [hx] at h; exact absurd h (by simp)
    | ok y =>
      rw [hx] at h
      cases hxs : mapME f xs with
      | error e => rw [hxs] at h; exact absurd h (by simp)
      | ok ys' =>
        rw [hxs] at h
        injection h with h
        simp [← h, ih hxs]

theorem mapME_ok_map {β γ δ ε : Type} {f : β → Except ε γ} {g : γ → δ} {k : β → δ}
    (H : ∀ x y, f x = .ok y → g y = k x) {l : List β} {ys : List γ}
    (h : mapME f l = .ok ys) : ys.map g = l.map k := by
  induction l generalizing ys with
  | nil => simp [mapME] at h; simp [← h]
  | cons x xs ih =>
    simp only [mapME, bind, Except.bind] at h
    cases hx : f x with
    | error e => rw [hx] at h; exact absurd h (by simp)
    | ok y =>
      rw [hx] at h
      cases hxs : mapME f xs with
      | error e => rw [hxs] at h; exact absurd h (by simp)
      | ok ys' =>
        rw [hxs] at h
        injection h with h
        simp [← h, ih hxs, H x y hx]

theorem mapME_ok_of_mem {β γ ε : Type} {f : β → Except ε γ} {l : List β} {ys : List γ}
    (h : mapME f l = .ok ys) {x : β} (hx : x ∈ l) : ∃ y ∈ ys, f x = .ok y := by
  induction l generalizing ys with
  | nil => exact absurd hx (List.not_mem_nil x)
  | cons a xs ih =>
    simp only [mapME, bind, Except.bind] at h
    cases ha : f a with
    | error e => rw [ha] at h; exact absurd h (by simp)
    | ok y =>
      rw [ha] at h
      cases hxs : mapME f xs with
      | error e => rw [hxs] at h; exact absurd h (by simp)
      | ok ys' =>
        rw [hxs] at h
        injection h with h
        rcases List.mem_cons.mp hx with hxa | hxm
        · exact ⟨y, by simp [← h], hxa ▸ ha⟩
        · obtain ⟨y', hy', hfy'⟩ := ih hxs hxm
          exact ⟨y', by simp [← h, hy'], hfy'⟩

theorem mapME_ok_mem {β γ ε : Type} {f : β → Except ε γ} {l : List β} {ys : List γ}
    (h : mapME f l = .ok ys) {y : γ} (hy : y ∈ ys) : ∃ x ∈ l, f x = .ok y := by
  induction l generalizing ys with
  | nil => simp [mapME] at h; subst h; exact absurd hy (List.not_mem_nil y)
  | cons a xs ih =>
    simp only [mapME, bind, Except.bind] at h
    cases ha : f a with
    | error e => rw [ha] at h; exact absurd h (by simp)
    | ok y' =>
      rw [ha] at h
      cases hxs : mapME f xs with
      | error e => rw [hxs] at h; exact absurd h (by simp)
      | ok ys' =>
        rw [hxs] at h
        injection h with h
        rw [← h] at hy
        rcases List.mem_cons.mp hy with hya | hym
        · exact ⟨a, List.mem_cons_self a xs, hya ▸ ha⟩
        · obtain ⟨x, hx, hfx⟩ := ih hxs hym
          exact ⟨x, List.mem_cons_of_mem a hx, hfx⟩

omit [FloorRing α] in
theorem dailySeries_ne_nil {rows : List (FRow α)} (h : rows ≠ []) :
    dailySeries rows ≠ [] := by
  unfold dailySeries
  cases rows with
  | nil => exact absurd rfl h
  | cons r rs =>
    intro hc
    have : r.date ∈ (((r :: rs).map (·.date)).dedup) :=
      List.mem_dedup.mpr (List.mem_map.mpr ⟨r, List.mem_cons_self r rs, rfl⟩)
    rw [List.map_eq_nil_iff] at hc
    rw [hc] at this
    exact absurd this (List.not_mem_nil _)

omit [FloorRing α] in
theorem dailyMAE_ok_of_ne_nil {rows : List (FRow α)} (h : rows ≠ []) :
    ∃ m, dailyMAE rows = .ok m ∧ 0 ≤ m := by
  unfold dailyMAE
  rw [mean_absolute_error]
  have hne : (dailySeries rows).length ≠ 0 :=
    fun hc => dailySeries_ne_nil h (List.length_eq_zero.mp hc)
  simp only [List.length_map]
  rw [if_neg (by simp), if_neg hne]
  refine ⟨_, rfl, ?_⟩
  apply div_nonneg _ (by positivity)
  apply List.sum_nonneg
  intro x hx
  obtain ⟨p, _, hp⟩ := List.mem_map.mp hx
  rw [← hp]
  exact abs_nonneg _

omit [FloorRing α] in
theorem dailyMAE_nil : dailyMAE ([] : List (FRow α)) = .error "Found array with 0 samples" := by
  unfold dailyMAE dailySeries mean_absolute_error
  simp

theorem exceptMap_ok {β γ ε : Type} {f : β → γ} {x : Except ε β} {y : γ}
    (h : Except.map f x = .ok y) : ∃ b, x = .ok b ∧ y = f b := by
  cases x with
  | error e => exact absurd h (by simp [Except.map])
  | ok b =>
    refine ⟨b, rfl, ?_⟩
    simp [Except.map] at h
    exact h.symm

omit [FloorRing α] in
theorem dailyMAE_ok_nonneg {rows : List (FRow α)} {m : α}
    (h : dailyMAE rows = .ok m) : 0 ≤ m :=
  mean_absolute_error_ok_nonneg h

omit [FloorRing α] in
theorem overallBranch_ok {rows : List (FRow α)} {r : OverallRow α}
    (h : overallBranch rows = .ok r) :
    ∃ m, dailyMAE rows = .ok m ∧
      r = ⟨(rows.map (·.predictions)).sum, (rows.map (·.predictions)).sum / 93, m,
           (rows.map (·.predictions)).sum / 93 - m, (rows.map (·.predictions)).sum / 93 + m,
           (rows.map (·.predictions)).sum - m * 93, (rows.map (·.predictions)).sum + m * 93⟩ := by
  unfold overallBranch at h
  cases hm : dailyMAE rows with
  | error e => rw [hm] at h; exact absurd h (by simp [bind, Except.bind])
  | ok m =>
    rw [hm] at h
    simp only [bind, Except.bind, Except.ok.injEq] at h
    exact ⟨m, rfl, h.symm⟩

omit [FloorRing α] in
theorem storeBranch_ok {rows : List (FRow α)} {sid : ℤ} {r : StoreRow α}
    (h : storeBranch rows sid = .ok r) :
    ∃ m, dailyMAE (rows.filter (·.store = sid)) = .ok m ∧
      r = ⟨sid, ((rows.filter (·.store = sid)).map (·.predictions)).sum,
           ((rows.filter (·.store = sid)).map (·.predictions)).sum / 93, m,
           ((rows.filter (·.store = sid)).map (·.predictions)).sum / 93 - m,
           ((rows.filter (·.store = sid)).map (·.predictions)).sum / 93 + m,
           ((rows.filter (·.store = sid)).map (·.predictions)).sum - m * 93,
           ((rows.filter (·.store = sid)).map (·.predictions)).sum + m * 93⟩ := by
  unfold storeBranch at h
  cases hm : dailyMAE (rows.filter (·.store = sid)) with
  | error e => simp [hm, bind, Except.bind] at h
  | ok m =>
    simp only [hm, bind, Except.bind, Except.ok.injEq] at h
    exact ⟨m, rfl, h.symm⟩

omit [FloorRing α] in
theorem itemBranch_ok {rows : List (FRow α)} {p : ℤ × ℤ} {r : ItemRow α}
    (h : itemBranch rows p = .ok r) :
    ∃ m, mean_absolute_error ((groupRows rows p).map (·.sales))
           ((groupRows rows p).map (·.predictions)) = .ok m ∧
      r = ⟨p.1, p.2, ((groupRows rows p).map (·.predictions)).sum,
           ((groupRows rows p).map (·.predictions)).sum / ((groupRows rows p).length : α), m,
           ((groupRows rows p).map (·.predictions)).sum / ((groupRows rows p).length : α) - m,
           ((groupRows rows p).map (·.predictions)).sum / ((groupRows rows p).length : α) + m,
           ((groupRows rows p).map (·.predictions)).sum - m * 93,
           ((groupRows rows p).map (·.predictions)).sum + m * 93⟩ := by
  unfold itemBranch at h
  cases hm : mean_absolute_error ((groupRows rows p).map (·.sales))
      ((groupRows rows p).map (·.predictions)) with
  | error e => simp [hm, bind, Except.bind] at h
  | ok m =>
    simp only [hm, bind, Except.bind, Except.ok.injEq] at h
    exact ⟨m, rfl, h.symm⟩

omit [FloorRing α] in
theorem perStoreItemBranch_ok {rows : List (FRow α)} {l : List (ItemRow α)}
    (h : perStoreItemBranch rows = .ok l) :
    mapME (itemBranch rows) (pairsOf rows) = .ok l := by
  unfold perStoreItemBranch at h
  split at h
  · exact absurd h (by simp)
  · exact h

theorem roundHEF_sub_le {x m : α} (hm : 0 ≤ m) : roundHEF (x - m) ≤ roundHEF x :=
  roundHEF_mono (by linarith)

theorem roundHEF_le_add {x m : α} (hm : 0 ≤ m) : roundHEF x ≤ roundHEF (x + m) :=
  roundHEF_mono (by linarith)

theorem roundHE_eq_of_lt_half {x : α} (n : ℤ) (h0 : (n : α) ≤ x) (h1 : x < (n : α) + 1 / 2) :
    roundHE x = n := by
  have hf : ⌊x⌋ = n := Int.floor_eq_iff.mpr ⟨h0, by linarith⟩
  have hfr : Int.fract x < 1 / 2 := by
    unfold Int.fract
    rw [hf]
    linarith
  unfold roundHE
  rw [if_pos hfr, hf]

theorem mapMO_some_length {β γ : Type} {f : β → Option γ} {l : List β} {ys : List γ}
    (h : mapMO f l = some ys) : ys.length = l.length := by
  induction l generalizing ys with
  | nil => simp [mapMO] at h; simp [← h]
  | cons x xs ih =>
    simp only [mapMO, bind, Option.bind] at h
    cases hx : f x with
    | none => rw [hx] at h; exact absurd h (by simp)
    | some y =>
      rw [hx] at h
      cases hxs : mapMO f xs with
      | none => rw [hxs] at h; exact absurd h (by simp)
      | some ys' =>
        rw [hxs] at h
        injection h with h
        simp [← h, ih hxs]

theorem expm1_zero : expm1 0 = 0 := by
  simp [expm1]

theorem expm1_log {x : ℝ} (h : 0 < x) : expm1 (Real.log x) = x - 1 := by
  simp [expm1, Real.exp_log h]

theorem roundOverallRow_integral (r : OverallRow α) : (roundOverallRow r).integral :=
  ⟨⟨_, rfl⟩, ⟨_, rfl⟩, ⟨_, rfl⟩, ⟨_, rfl⟩, ⟨_, rfl⟩, ⟨_, rfl⟩, ⟨_, rfl⟩⟩

theorem roundStoreRow_integral (r : StoreRow α) : (roundStoreRow r).integral :=
  ⟨⟨_, rfl⟩, ⟨_, rfl⟩, ⟨_, rfl⟩, ⟨_, rfl⟩, ⟨_, rfl⟩, ⟨_, rfl⟩, ⟨_, rfl⟩⟩

theorem roundItemRow_integral (r : ItemRow α) : (roundItemRow r).integral :=
  ⟨⟨_, rfl⟩, ⟨_, rfl⟩, ⟨_, rfl⟩, ⟨_, rfl⟩, ⟨_, rfl⟩, ⟨_, rfl⟩, ⟨_, rfl⟩⟩

end Lemmas

section ClaimTheorems

/-- C4: for every input and every mode, in every row of the returned table
the worst average sales scenario ≤ the average predicted sales (daily) ≤
the best average sales scenario, and worst total scenario ≤ total
predicted sales ≤ best total scenario, because the daily MAE is
non-negative; the ordering survives the final rounding step since
round-half-to-even is monotone. -/
theorem c4_scenario_ordering {α : Type} [LinearOrderedField α] [FloorRing α]
    (rows : List (FRow α)) (per_store per_store_item : Bool) (fr : FinResult α)
    (h : computeResults rows per_store per_store_item = .ok fr) : fr.allOrdered := by
  unfold computeResults at h
  cases per_store with
  | true =>
    simp only [if_true] at h
    obtain ⟨l0, hl0, hfr⟩ := exceptMap_ok h
    subst hfr
    intro r hr
    obtain ⟨sr, hsr, hr_eq⟩ := List.mem_map.mp hr
    obtain ⟨sid, _, hsb⟩ := mapME_ok_mem hl0 hsr
    obtain ⟨m, hmae, hsr_eq⟩ := storeBranch_ok hsb
    have hm : 0 ≤ m := dailyMAE_ok_nonneg hmae
    have hm93 : 0 ≤ m * 93 := mul_nonneg hm (by norm_num)
    subst hsr_eq
    rw [← hr_eq]
    exact ⟨roundHEF_sub_le hm, roundHEF_le_add hm, roundHEF_sub_le hm93, roundHEF_le_add hm93⟩
  | false =>
    cases per_store_item with
    | true =>
      simp only [Bool.false_eq_true, if_false, if_true] at h
      obtain ⟨l0, hl0, hfr⟩ := exceptMap_ok h
      subst hfr
      intro r hr
      obtain ⟨ir, hir, hr_eq⟩ := List.mem_map.mp hr
      obtain ⟨p, _, hib⟩ := mapME_ok_mem (perStoreItemBranch_ok hl0) hir
      obtain ⟨m, hmae, hir_eq⟩ := itemBranch_ok hib
      have hm : 0 ≤ m := mean_absolute_error_ok_nonneg hmae
      have hm93 : 0 ≤ m * 93 := mul_nonneg hm (by norm_num)
      subst hir_eq
      rw [← hr_eq]
      exact ⟨roundHEF_sub_le hm, roundHEF_le_add hm, roundHEF_sub_le hm93, roundHEF_le_add hm93⟩
    | false =>
      simp only [Bool.false_eq_true, if_false] at h
      obtain ⟨r0, hr0, hfr⟩ := exceptMap_ok h
      subst hfr
      obtain ⟨m, hmae, hr0_eq⟩ := overallBranch_ok hr0
      have hm : 0 ≤ m := dailyMAE_ok_nonneg hmae
      have hm93 : 0 ≤ m * 93 := mul_nonneg hm (by norm_num)
      subst hr0_eq
      exact ⟨roundHEF_sub_le hm, roundHEF_le_add hm, roundHEF_sub_le hm93, roundHEF_le_add hm93⟩

/-- Witness for C4: the ordering theorem applied to the concrete ten-store
frame twq in overall mode. -/
theorem c4_scenario_ordering_witness :
    computeResults twq false false = .ok (.overall twqOverallRow) ∧
    FinResult.allOrdered (FinResult.overall (α := ℚ) twqOverallRow) := by
  have h : computeResults twq false false = .ok (.overall twqOverallRow) := by
    simp [computeResults, overallBranch, twq, twqOverallRow, dailyMAE, dailySeries,
          mean_absolute_error, List.dedup_cons_of_mem, List.dedup_cons_of_not_mem,
          bind, Except.bind, Except.map, roundOverallRow, roundHEF, roundHE]
  exact ⟨h, c4_scenario_ordering twq false false _ h⟩

/-- C5: on every input on which the computation succeeds, the returned
table has exactly 1 row in overall mode; exactly 10 rows in per_store
mode, one per store id 1..10 regardless of which store ids appear in the
data; and in per_store_item mode exactly one row per distinct (store,
item) pair present in the data (the result's key column is duplicate-free
and holds exactly the pairs occurring in the input rows). -/
theorem c5_row_counts {α : Type} [LinearOrderedField α] [FloorRing α]
    (rows : List (FRow α)) (b2 : Bool) :
    (∀ fr, computeResults rows false false = .ok fr → fr.rowCount = 1) ∧
    (∀ fr, computeResults rows true b2 = .ok fr → fr.rowCount = 10 ∧
      ∃ l, fr = .stores l ∧ l.map (·.store) = (List.range 10).map fun k => (k : ℤ) + 1) ∧
    (∀ fr, computeResults rows false true = .ok fr →
      fr.rowCount = (pairsOf rows).length ∧
      ∃ l, fr = .items l ∧ (l.map fun r => (r.store, r.item)).Nodup ∧
        ∀ p : ℤ × ℤ, (p ∈ l.map fun r => (r.store, r.item)) ↔
          (p ∈ rows.map fun r => (r.store, r.item))) := by
  refine ⟨?_, ?_, ?_⟩
  · intro fr h
    unfold computeResults at h
    simp only [Bool.false_eq_true, if_false] at h
    obtain ⟨r0, hr0, hfr⟩ := exceptMap_ok h
    subst hfr
    rfl
  · intro fr h
    unfold computeResults at h
    simp only [if_true] at h
    obtain ⟨l0, hl0, hfr⟩ := exceptMap_ok h
    subst hfr
    have hmap : (l0.map roundStoreRow).map (·.store) =
        ((List.range 10).map fun k => (k : ℤ) + 1).map id := by
      rw [List.map_map]
      exact mapME_ok_map (fun sid sr hsr => by
        obtain ⟨m, -, hsr_eq⟩ := storeBranch_ok hsr
        subst hsr_eq
        rfl) hl0
    rw [List.map_id] at hmap
    refine ⟨?_, l0.map roundStoreRow, rfl, hmap⟩
    show (l0.map roundStoreRow).length = 10
    have := congrArg List.length hmap
    simpa using this
  · intro fr h
    unfold computeResults at h
    simp only [Bool.false_eq_true, if_false, if_true] at h
    obtain ⟨l0, hl0, hfr⟩ := exceptMap_ok h
    subst hfr
    have hmap : (l0.map roundItemRow).map (fun r => (r.store, r.item)) =
        (pairsOf rows).map id := by
      rw [List.map_map]
      exact mapME_ok_map (fun p ir hir => by
        obtain ⟨m, -, hir_eq⟩ := itemBranch_ok hir
        subst hir_eq
        rfl) (perStoreItemBranch_ok hl0)
    rw [List.map_id] at hmap
    refine ⟨?_, l0.map roundItemRow, rfl, ?_, ?_⟩
    · show (l0.map roundItemRow).length = (pairsOf rows).length
      have := congrArg List.length hmap
      simpa using this
    · rw [hmap]
      exact List.nodup_dedup _
    · intro p
      rw [hmap]
      unfold pairsOf
      exact List.mem_dedup

/-- Witness for C5: the row-count theorem applied to the concrete
ten-store frame twq in all three modes. -/
theorem c5_row_counts_witness :
    computeResults twq false false = .ok (.overall twqOverallRow) ∧
    FinResult.rowCount (FinResult.overall (α := ℚ) twqOverallRow) = 1 ∧
    computeResults twq true true = .ok (.stores twqStoreRows) ∧
    FinResult.rowCount (FinResult.stores twqStoreRows) = 10 ∧
    computeResults twq false true = .ok (.items twqItemRows) ∧
    (twqItemRows.map fun r => (r.store, r.item)).Nodup := by
  have h1 : computeResults twq false false = .ok (.overall twqOverallRow) := by
    simp [computeResults, overallBranch, twq, twqOverallRow, dailyMAE, dailySeries,
          mean_absolute_error, List.dedup_cons_of_mem, List.dedup_cons_of_not_mem,
          bind, Except.bind, Except.map, roundOverallRow, roundHEF, roundHE]
  have h2 : computeResults twq true true = .ok (.stores twqStoreRows) := by
    simp [computeResults, perStoreBranch, storeBranch, twq, twqStoreRows, dailyMAE,
          dailySeries, mean_absolute_error, List.dedup_cons_of_mem, List.dedup_cons_of_not_mem,
          bind, Except.bind, Except.map, roundStoreRow, roundHEF, roundHE, mapME,
          List.range_succ]
  have h3 : computeResults twq false true = .ok (.items twqItemRows) := by
    simp [computeResults, perStoreItemBranch, itemBranch, twq, twqItemRows, pairsOf,
          groupRows, mean_absolute_error, List.dedup_cons_of_mem, List.dedup_cons_of_not_mem,
          bind, Except.bind, Except.map, roundItemRow, roundHEF, roundHE, mapME,
          List.range_succ]
  refine ⟨h1, (c5_row_counts twq true).1 _ h1, h2, ((c5_row_counts twq true).2.1 _ h2).1,
         h3, ?_⟩
  obtain ⟨-, l, hl, hnodup, -⟩ := (c5_row_counts twq true).2.2 _ h3
  injection hl with hl
  rw [hl]
  exact hnodup

/-- C6: in every mode, every numeric column of the returned table holds
only integer-valued numbers, and the returned table is exactly the
round-half-to-even image of the corresponding unrounded table, rounding
being the final step before returning. -/
theorem c6_rounding {α : Type} [LinearOrderedField α] [FloorRing α]
    (rows : List (FRow α)) (b1 b2 : Bool) :
    computeResults rows b1 b2 = (rawResults rows b1 b2).map FinResult.roundAll ∧
    ∀ fr, computeResults rows b1 b2 = .ok fr → fr.allIntegral := by
  have hdispatch : computeResults rows b1 b2 = (rawResults rows b1 b2).map FinResult.roundAll := by
    unfold computeResults rawResults
    cases b1 with
    | true =>
      simp only [if_true]
      cases perStoreBranch rows <;> simp [Except.map, FinResult.roundAll]
    | false =>
      cases b2 with
      | true =>
        simp only [Bool.false_eq_true, if_false, if_true]
        cases perStoreItemBranch rows <;> simp [Except.map, FinResult.roundAll]
      | false =>
        simp only [Bool.false_eq_true, if_false]
        cases overallBranch rows <;> simp [Except.map, FinResult.roundAll]
  refine ⟨hdispatch, fun fr h => ?_⟩
  rw [hdispatch] at h
  obtain ⟨fr0, -, hfr⟩ := exceptMap_ok h
  subst hfr
  cases fr0 with
  | overall r => exact roundOverallRow_integral r
  | stores l =>
    intro r hr
    obtain ⟨sr, -, hr_eq⟩ := List.mem_map.mp hr
    rw [← hr_eq]
    exact roundStoreRow_integral sr
  | items l =>
    intro r hr
    obtain ⟨ir, -, hr_eq⟩ := List.mem_map.mp hr
    rw [← hr_eq]
    exact roundItemRow_integral ir

/-- Witness for C6: the rounding theorem applied to the concrete ten-store
frame twq in overall mode. -/
theorem c6_rounding_witness :
    computeResults twq false false = .ok (.overall twqOverallRow) ∧
    FinResult.allIntegral (FinResult.overall (α := ℚ) twqOverallRow) := by
  have h : computeResults twq false false = .ok (.overall twqOverallRow) := by
    simp [computeResults, overallBranch, twq, twqOverallRow, dailyMAE, dailySeries,
          mean_absolute_error, List.dedup_cons_of_mem, List.dedup_cons_of_not_mem,
          bind, Except.bind, Except.map, roundOverallRow, roundHEF, roundHE]
  exact ⟨h, (c6_rounding twq false false).2 _ h⟩

/-- C8: in per_store mode, whenever some store id in [1,10] has zero
matching rows, that store's day-grouped MAE computation runs on an empty
series and errors, so the branch produces an error (surfaced to the caller
as the wrapped generic error) rather than a 10-row result. -/
theorem c8_empty_store_errors {α : Type} [LinearOrderedField α] [FloorRing α]
    (rows : List (FRow α)) (b2 : Bool) (s : ℤ)
    (h1 : 1 ≤ s) (h2 : s ≤ 10) (h3 : rows.filter (·.store = s) = []) :
    ∃ e, computeResults rows true b2 = .error e := by
  cases hres : computeResults rows true b2 with
  | error e => exact ⟨e, rfl⟩
  | ok fr =>
    exfalso
    unfold computeResults at hres
    simp only [if_true] at hres
    obtain ⟨l0, hl0, -⟩ := exceptMap_ok hres
    have hs_mem : s ∈ (List.range 10).map fun k => (k : ℤ) + 1 := by
      have hk : s = ((s - 1).toNat : ℤ) + 1 := by omega
      have hkr : (s - 1).toNat ∈ List.range 10 := List.mem_range.mpr (by omega)
      rw [hk]
      exact List.mem_map_of_mem (fun k : ℕ => (k : ℤ) + 1) hkr
    obtain ⟨y, -, hy⟩ := mapME_ok_of_mem hl0 hs_mem
    obtain ⟨m, hmae, -⟩ := storeBranch_ok hy
    rw [h3, dailyMAE_nil] at hmae
    exact absurd hmae (by simp)

/-- Witness for C8: store 1 has no rows in the one-row frame exNoStore, so
per_store mode errors on it. -/
theorem c8_empty_store_errors_witness :
    (1 : ℤ) ≤ 1 ∧ (1 : ℤ) ≤ 10 ∧ exNoStore.filter (·.store = 1) = [] ∧
    ∃ e, computeResults exNoStore true false = .error e :=
  ⟨by decide, by decide, by decide,
   c8_empty_store_errors exNoStore false 1 (by decide) (by decide) (by decide)⟩

/-- C1: the reported MAE is the daily-aggregated MAE in overall and in
per_store mode; in per_store_item mode, however, the reported MAE of each
group is mean_absolute_error applied to the group's raw per-row sales and
predictions columns, with no grouping by date (line 76). -/
theorem c1_mae_aggregation {α : Type} [LinearOrderedField α] (rows : List (FRow α)) :
    (∀ r, overallBranch rows = .ok r → dailyMAE rows = .ok r.mae) ∧
    (∀ sid sr, storeBranch rows sid = .ok sr →
      dailyMAE (rows.filter (·.store = sid)) = .ok sr.mae) ∧
    (∀ l ir, perStoreItemBranch rows = .ok l → ir ∈ l →
      mean_absolute_error ((groupRows rows (ir.store, ir.item)).map (·.sales))
        ((groupRows rows (ir.store, ir.item)).map (·.predictions)) = .ok ir.mae) := by
  refine ⟨?_, ?_, ?_⟩
  · intro r h
    obtain ⟨m, hm, hr⟩ := overallBranch_ok h
    subst hr
    exact hm
  · intro sid sr h
    obtain ⟨m, hm, hr⟩ := storeBranch_ok h
    subst hr
    exact hm
  · intro l ir hl hir
    obtain ⟨p, -, hib⟩ := mapME_ok_mem (perStoreItemBranch_ok hl) hir
    obtain ⟨m, hm, hir_eq⟩ := itemBranch_ok hib
    subst hir_eq
    simpa using hm

/-- Witness for C1: the MAE-shape theorem applied to the concrete
ten-store frame twq in overall mode. -/
theorem c1_mae_aggregation_witness :
    overallBranch twq = .ok (⟨0, 0, 0, 0, 0, 0, 0⟩ : OverallRow ℚ) ∧
    dailyMAE twq = .ok (0 : ℚ) := by
  have h : overallBranch twq = .ok (⟨0, 0, 0, 0, 0, 0, 0⟩ : OverallRow ℚ) := by
    simp [overallBranch, twq, dailyMAE, dailySeries, mean_absolute_error,
          List.dedup_cons_of_mem, List.dedup_cons_of_not_mem, bind, Except.bind]
  exact ⟨h, (c1_mae_aggregation twq).1 _ h⟩

/-- Counterexample to C1 as stated: in the frame exDup the single (store,
item) group has two rows on the same date (sales 0 and 2, predictions 1
and 1).  The daily-aggregated MAE of that group is 0 (day sums 2 vs 2),
but the reported per_store_item MAE is 1, computed from the raw per-row
residuals. -/
theorem c1_counterexample :
    perStoreItemBranch exDup = .ok [⟨1, 1, 2, 1, 1, 0, 2, -91, 95⟩] ∧
    dailyMAE exDup = .ok 0 ∧ ((1 : ℚ) ≠ 0) := by
  refine ⟨?_, ?_, by norm_num⟩
  · simp [perStoreItemBranch, itemBranch, exDup, pairsOf, groupRows, mean_absolute_error,
          List.dedup_cons_of_mem, List.dedup_cons_of_not_mem, bind, Except.bind, mapME]
    norm_num
  · simp [dailyMAE, exDup, dailySeries, mean_absolute_error,
          List.dedup_cons_of_mem, List.dedup_cons_of_not_mem]
    norm_num

/-- C3: the reported average predicted sales is total / 93 (before the
final rounding) in overall and in per_store mode; in per_store_item mode,
however, line 75 computes predictions.mean(), so the reported average is
the group total divided by the group's row count, not by 93. -/
theorem c3_avg_total_relation {α : Type} [LinearOrderedField α] (rows : List (FRow α)) :
    (∀ r, overallBranch rows = .ok r → r.avg = r.total / 93) ∧
    (∀ sid sr, storeBranch rows sid = .ok sr → sr.avg = sr.total / 93) ∧
    (∀ l ir, perStoreItemBranch rows = .ok l → ir ∈ l →
      ir.avg = ir.total / ((groupRows rows (ir.store, ir.item)).length : α)) := by
  refine ⟨?_, ?_, ?_⟩
  · intro r h
    obtain ⟨m, -, hr⟩ := overallBranch_ok h
    subst hr
    rfl
  · intro sid sr h
    obtain ⟨m, -, hr⟩ := storeBranch_ok h
    subst hr
    rfl
  · intro l ir hl hir
    obtain ⟨p, -, hib⟩ := mapME_ok_mem (perStoreItemBranch_ok hl) hir
    obtain ⟨m, -, hir_eq⟩ := itemBranch_ok hib
    subst hir_eq
    simp

/-- Witness for C3: the average/total relation applied to the concrete
ten-store frame twq in overall mode. -/
theorem c3_avg_total_relation_witness :
    overallBranch twq = .ok (⟨0, 0, 0, 0, 0, 0, 0⟩ : OverallRow ℚ) ∧
    (0 : ℚ) = 0 / 93 := by
  have h : overallBranch twq = .ok (⟨0, 0, 0, 0, 0, 0, 0⟩ : OverallRow ℚ) := by
    simp [overallBranch, twq, dailyMAE, dailySeries, mean_absolute_error,
          List.dedup_cons_of_mem, List.dedup_cons_of_not_mem, bind, Except.bind]
  exact ⟨h, (c3_avg_total_relation twq).1 _ h⟩

/-- Counterexample to C3 as stated: in the one-row frame exOne the single
(store, item) group's reported average predicted sales (before rounding)
is 93, the group mean, while total / 93 = 93 / 93 = 1. -/
theorem c3_counterexample :
    perStoreItemBranch exOne = .ok [⟨1, 1, 93, 93, 0, 93, 93, 93, 93⟩] ∧
    (93 : ℚ) ≠ 93 / 93 := by
  constructor
  · simp [perStoreItemBranch, itemBranch, exOne, pairsOf, groupRows, mean_absolute_error,
          List.dedup_cons_of_mem, List.dedup_cons_of_not_mem, bind, Except.bind, mapME]
  · norm_num

theorem map_sales_zip (data : List DRow) (A B : List ℝ)
    (hA : A.length = data.length) (hB : B.length = data.length) :
    ((data.zip (A.zip B)).map fun t =>
      FRow.mk t.1.date t.1.store t.1.item (expm1 t.2.1) (expm1 t.2.2)).map (·.sales) =
      A.map expm1 := by
  rw [List.map_map]
  have h2 : (data.zip (A.zip B)).map Prod.snd = A.zip B :=
    List.map_snd_zip _ _ (by simp [List.length_zip, hA, hB])
  have h1 : (data.zip (A.zip B)).map (fun t => t.2.1) = A := by
    have h3 : (data.zip (A.zip B)).map (fun t => t.2.1) =
        ((data.zip (A.zip B)).map Prod.snd).map Prod.fst := by
      rw [List.map_map]
      rfl
    rw [h3, h2]
    exact List.map_fst_zip A B (by rw [hB, ← hA])
  have h4 : (data.zip (A.zip B)).map ((·.sales) ∘ fun t =>
      FRow.mk t.1.date t.1.store t.1.item (expm1 t.2.1) (expm1 t.2.2)) =
      ((data.zip (A.zip B)).map (fun t => t.2.1)).map expm1 := by
    rw [List.map_map]
    rfl
  rw [h4, h1]

/-- C2: y_true's pre-existing index is reset before alignment (line 25), so
the sales column is exp(v) - 1 of y_true's values in positional order and
any index carried by y_true cannot change the result; y_pred's index,
however, is NOT reset (line 26), so the predictions column aligns by
y_pred's index labels against the frame's positions 0..n-1, and an index
carried by the prediction sequence does change the result. -/
theorem c2_index_alignment (data : List DRow) (yt yt' yp : Series)
    (h : yt.map Prod.snd = yt'.map Prod.snd) :
    buildTable data yt yp = buildTable data yt' yp ∧
    ∀ rows, buildTable data yt yp = .ok rows →
      rows.map (·.sales) = (seriesReset yt).map expm1 := by
  have hrw : seriesReset yt = seriesReset yt' := h
  constructor
  · unfold buildTable
    rw [hrw]
  · intro rows hro
    unfold buildTable at hro
    by_cases hlen : (seriesReset yt).length ≠ data.length
    · rw [if_pos hlen] at hro
      exact absurd hro (by simp)
    · rw [if_neg hlen] at hro
      push_neg at hlen
      by_cases hnd : ¬(yp.map (·.1)).Nodup
      · rw [if_pos hnd] at hro
        exact absurd hro (by simp)
      · rw [if_neg hnd] at hro
        cases hm : mapMO (lookupLabel yp) ((List.range data.length).map Int.ofNat) with
        | none => rw [hm] at hro; exact absurd hro (by simp)
        | some preds =>
          rw [hm] at hro
          injection hro with hro
          rw [← hro]
          have hB : preds.length = data.length := by
            have := mapMO_some_length hm
            simpa using this
          exact map_sales_zip data (seriesReset yt) preds hlen hB

/-- Witness for C2: two y_true series with equal values but different
labels produce the same working frame. -/
theorem c2_index_alignment_witness :
    caYtA.map Prod.snd = caYtB.map Prod.snd ∧
    buildTable caData caYtA caYp = buildTable caData caYtB caYp :=
  ⟨rfl, (c2_index_alignment caData caYtA caYtB caYp rfl).1⟩

/-- Counterexample to C2 as stated: c2ypA and c2ypB carry the same value
sequence [0, ln 4] but c2ypB's index is swapped; the build aligns
predictions by label, so the two calls produce different working frames,
and the downstream daily MAE differs (0 versus 3) — the prediction
sequence's index does change the result. -/
theorem c2_counterexample :
    c2ypA.map Prod.snd = c2ypB.map Prod.snd ∧
    buildTable c7data c2yt c2ypA = .ok c2tblA ∧
    buildTable c7data c2yt c2ypB = .ok c2tblB ∧
    c2tblA ≠ c2tblB ∧
    dailyMAE c2tblA = .ok 0 ∧ dailyMAE c2tblB = .ok 3 ∧ (0 : ℝ) ≠ 3 := by
  have e4 : expm1 (Real.log 4) = 3 := by rw [expm1_log (by norm_num)]; norm_num
  refine ⟨rfl, ?_, ?_, ?_, ?_, ?_, by norm_num⟩
  · simp [buildTable, c7data, c2yt, c2ypA, c2tblA, seriesReset, mapMO, lookupLabel,
          List.find?, bind, Option.bind, expm1_zero, e4, List.range_succ]
  · simp [buildTable, c7data, c2yt, c2ypB, c2tblB, seriesReset, mapMO, lookupLabel,
          List.find?, bind, Option.bind, expm1_zero, e4, List.range_succ]
  · simp [c2tblA, c2tblB, FRow.mk.injEq]
  · simp [dailyMAE, c2tblA, dailySeries, mean_absolute_error,
          List.dedup_cons_of_mem, List.dedup_cons_of_not_mem]
  · simp [dailyMAE, c2tblB, dailySeries, mean_absolute_error,
          List.dedup_cons_of_mem, List.dedup_cons_of_not_mem]

/-- C7: on the dataset with a single store/item pair on two dates, true
log-values [0, 0] and predicted log-values [ln 2, ln 2], overall mode
returns total predicted sales 2, average predicted sales (daily) 0 (the
rounding of 2/93), daily MAE 1, and scenario columns round(2/93 - 1) = -1,
round(2/93 + 1) = 1, 2 - 93 = -91 and 2 + 93 = 95. -/
theorem c7_worked_example :
    estimate_financial_results c7data c7yt c7yp false false =
      .ok (.overall ⟨2, 0, 1, -1, 1, -91, 95⟩) := by
  have e2 : expm1 (Real.log 2) = 1 := by rw [expm1_log (by norm_num)]; norm_num
  have hbt : buildTable c7data c7yt c7yp = .ok [⟨0, 1, 1, 0, 1⟩, ⟨1, 1, 1, 0, 1⟩] := by
    simp [buildTable, c7data, c7yt, c7yp, seriesReset, mapMO, lookupLabel, List.find?,
          bind, Option.bind, expm1_zero, e2, List.range_succ]
  have hob : overallBranch ([⟨0, 1, 1, 0, 1⟩, ⟨1, 1, 1, 0, 1⟩] : List (FRow ℝ)) =
      .ok ⟨2, 2 / 93, 1, 2 / 93 - 1, 2 / 93 + 1, 2 - 93, 2 + 93⟩ := by
    simp [overallBranch, dailyMAE, dailySeries, mean_absolute_error,
          List.dedup_cons_of_mem, List.dedup_cons_of_not_mem, bind, Except.bind]
    norm_num
  have hro : roundOverallRow (⟨2, 2 / 93, 1, 2 / 93 - 1, 2 / 93 + 1, 2 - 93, 2 + 93⟩ :
      OverallRow ℝ) = ⟨2, 0, 1, -1, 1, -91, 95⟩ := by
    unfold roundOverallRow roundHEF
    simp only [OverallRow.mk.injEq]
    refine ⟨?_, ?_, ?_, ?_, ?_, ?_, ?_⟩
    · rw [roundHE_eq_of_lt_half 2 (by norm_num) (by norm_num)]; norm_num
    · rw [roundHE_eq_of_lt_half 0 (by norm_num) (by norm_num)]; norm_num
    · rw [roundHE_eq_of_lt_half 1 (by norm_num) (by norm_num)]; norm_num
    · rw [roundHE_eq_of_lt_half (-1) (by norm_num) (by norm_num)]; norm_num
    · rw [roundHE_eq_of_lt_half 1 (by norm_num) (by norm_num)]; norm_num
    · rw [roundHE_eq_of_lt_half (-91) (by norm_num) (by norm_num)]; norm_num
    · rw [roundHE_eq_of_lt_half 95 (by norm_num) (by norm_num)]; norm_num
  unfold estimate_financial_results computeResults
  rw [hbt]
  simp [bind, Except.bind, Except.map, Except.mapError, hob, hro]

/-- C9: every call is either a success returning exactly the table the
inner computation produced, or a single generic wrapped error carrying the
inner computation's original cause; no other outcome exists. -/
theorem c9_error_wrapping (data : List DRow) (y_true y_pred : Series) (b1 b2 : Bool) :
    (∃ t, ((buildTable data y_true y_pred).bind fun rows => computeResults rows b1 b2) = .ok t ∧
      estimate_financial_results data y_true y_pred b1 b2 = .ok t) ∨
    ∃ c, ((buildTable data y_true y_pred).bind fun rows => computeResults rows b1 b2) = .error c ∧
      estimate_financial_results data y_true y_pred b1 b2 = .error ⟨c⟩ := by
  unfold estimate_financial_results
  cases h : (buildTable data y_true y_pred).bind fun rows => computeResults rows b1 b2 with
  | ok t => exact .inl ⟨t, rfl, rfl⟩
  | error c => exact .inr ⟨c, rfl, rfl⟩

/-- C10: the granularity selector is two independent boolean flags tested
in order: with per_store true the per-store result is returned whatever
per_store_item is (its branch is not taken), and with both flags false the
overall result is returned. -/
theorem c10_flag_dispatch (data : List DRow) (y_true y_pred : Series) :
    (∀ b2, estimate_financial_results data y_true y_pred true b2 =
      ((buildTable data y_true y_pred).bind fun rows =>
        (perStoreBranch rows).map fun l => FinResult.stores (l.map roundStoreRow)).mapError
        CustomException.mk) ∧
    estimate_financial_results data y_true y_pred false false =
      ((buildTable data y_true y_pred).bind fun rows =>
        (overallBranch rows).map fun r => FinResult.overall (roundOverallRow r)).mapError
        CustomException.mk :=
  ⟨fun _ => rfl, rfl⟩

end ClaimTheorems
